import Mathlib

/-!
Verification of the timetabling engine of `buet-timetables`.

The definitions below are a shallow embedding of the Python sources:
the CSV-loading layers are modelled by passing the already-loaded,
in-memory records (association lists keyed by id strings) to the
functions that the spec describes.  Python `dict` values become
association lists (`List (String × _)`), Python exceptions become
`Except String _`, and Python's stable `sorted` becomes the stable
insertion sort `sortBy` below (two stable sorts over the same total
preorder produce identical outputs, so this is observationally the
same function).
-/

namespace Timetables

/-! ### A stable, executable sort standing in for Python `sorted` -/

/-- Insert `a` in front of the first element `b` with `le a b`.  With
`le` a total preorder test this realises a stable insertion step. -/
def insertLe (le : α → α → Bool) (a : α) : List α → List α
  | [] => [a]
  | b :: l => if le a b then a :: b :: l else b :: insertLe le a l

/-- Stable insertion sort; the model of Python's (stable) `sorted`. -/
def sortBy (le : α → α → Bool) : List α → List α
  | [] => []
  | a :: l => insertLe le a (sortBy le l)

theorem insertLe_perm (le : α → α → Bool) (a : α) (l : List α) :
    List.Perm (insertLe le a l) (a :: l) := by
  induction l with
  | nil => simp [insertLe]
  | cons b l ih =>
    simp only [insertLe]
    by_cases h : le a b = true
    · simp [h]
    · simp only [h, if_false]
      exact ((ih.cons b).trans (List.Perm.swap a b l))

theorem sortBy_perm (le : α → α → Bool) (l : List α) :
    List.Perm (sortBy le l) l := by
  induction l with
  | nil => simp [sortBy]
  | cons a l ih => exact (insertLe_perm le a (sortBy le l)).trans (ih.cons a)

theorem sortBy_nodup (le : α → α → Bool) {l : List α} (h : l.Nodup) :
    (sortBy le l).Nodup :=
  (sortBy_perm le l).nodup_iff.mpr h

theorem mem_sortBy (le : α → α → Bool) {a : α} {l : List α} :
    a ∈ sortBy le l ↔ a ∈ l :=
  (sortBy_perm le l).mem_iff

theorem length_sortBy (le : α → α → Bool) (l : List α) :
    (sortBy le l).length = l.length :=
  (sortBy_perm le l).length_eq

theorem count_sortBy [DecidableEq α] (le : α → α → Bool) (a : α) (l : List α) :
    (sortBy le l).count a = l.count a :=
  (sortBy_perm le l).count_eq a

/-- Codepoint-wise lexicographic comparison of strings, the order used by
Python's `sorted` on `str` values. -/
def strLeAux : List Char → List Char → Bool
  | [], _ => true
  | _ :: _, [] => false
  | a :: as, b :: bs =>
    if a.toNat < b.toNat then true
    else if b.toNat < a.toNat then false
    else strLeAux as bs

/-- Boolean string comparison used as the key order for Python `sorted`. -/
def strLe (a b : String) : Bool := strLeAux a.data b.data

/-! ### Injectivity of the decimal numeral printer

The session expander mints ids of the form `"S" ++ toString idx`
(Python `f'S{idx}'`).  Their pairwise distinctness reduces to the
injectivity of `Nat.repr`, proved here by evaluating the printed
digit list back to the number it denotes. -/

/-- Value denoted by a most-significant-first list of decimal digit
characters, on top of an accumulated prefix value. -/
def digitsVal (acc : Nat) (ds : List Char) : Nat :=
  ds.foldl (fun a c => a * 10 + (c.toNat - 48)) acc

theorem digitsVal_append (acc : Nat) (xs ys : List Char) :
    digitsVal acc (xs ++ ys) = digitsVal (digitsVal acc xs) ys := by
  simp [digitsVal, List.foldl_append]

theorem digitChar_toNat {k : Nat} (h : k < 10) :
    (Nat.digitChar k).toNat = 48 + k := by
  interval_cases k <;> rfl

theorem toDigitsCore_shift (fuel n : Nat) (ds : List Char) :
    Nat.toDigitsCore 10 fuel n ds = Nat.toDigitsCore 10 fuel n [] ++ ds := by
  induction fuel generalizing n ds with
  | zero => simp [Nat.toDigitsCore]
  | succ fuel ih =>
    simp only [Nat.toDigitsCore]
    by_cases h : n / 10 = 0
    · simp [h]
    · simp only [h, if_false]
      rw [ih (n / 10) (Nat.digitChar (n % 10) :: ds),
        ih (n / 10) [Nat.digitChar (n % 10)], List.append_assoc]
      rfl

theorem digitsVal_toDigitsCore (fuel n acc : Nat) (h : n < fuel) :
    digitsVal acc (Nat.toDigitsCore 10 fuel n []) =
      acc * 10 ^ (Nat.toDigitsCore 10 fuel n []).length + n := by
  induction fuel generalizing n acc with
  | zero => omega
  | succ fuel ih =>
    simp only [Nat.toDigitsCore]
    by_cases h0 : n / 10 = 0
    · have hn : n < 10 := by omega
      have hmod : n % 10 = n := Nat.mod_eq_of_lt hn
      simp only [h0, if_true, digitsVal, List.foldl_cons, List.foldl_nil,
        List.length_cons, List.length_nil, hmod, digitChar_toNat hn]
      omega
    · simp only [h0, if_false]
      rw [toDigitsCore_shift, digitsVal_append, List.length_append]
      have hlt : n / 10 < fuel := by omega
      rw [ih (n / 10) acc hlt]
      have hmod : n % 10 < 10 := Nat.mod_lt _ (by omega)
      simp only [digitsVal, List.foldl_cons, List.foldl_nil, List.length_cons,
        List.length_nil, digitChar_toNat hmod]
      rw [pow_succ]
      have : 48 + n % 10 - 48 = n % 10 := by omega
      rw [this]
      have := Nat.div_add_mod n 10
      ring_nf
      omega

theorem digitsVal_toDigits (n : Nat) :
    digitsVal 0 (Nat.toDigits 10 n) = n := by
  have := digitsVal_toDigitsCore (n + 1) n 0 (Nat.lt_succ_self n)
  simpa [Nat.toDigits] using this

theorem natRepr_injective : Function.Injective Nat.repr := by
  intro m n h
  have hd : Nat.toDigits 10 m = Nat.toDigits 10 n := by
    have : (Nat.toDigits 10 m).asString = (Nat.toDigits 10 n).asString := h
    simpa [List.asString_eq] using congrArg String.data this
  calc m = digitsVal 0 (Nat.toDigits 10 m) := (digitsVal_toDigits m).symm
    _ = digitsVal 0 (Nat.toDigits 10 n) := by rw [hd]
    _ = n := digitsVal_toDigits n

/-- Session ids as minted by the expanders: Python `f'S{idx}'`. -/
def mkSessionId (idx : Nat) : String := "S" ++ toString idx

theorem mkSessionId_injective : Function.Injective mkSessionId := by
  intro m n h
  apply natRepr_injective
  have hd := congrArg String.data h
  simp only [mkSessionId, toString, String.data_append] at hd
  apply String.ext
  simpa using hd

/-! ### Data model (main.py / cache.py dataclasses and record dicts) -/

/-- Timeslot, the `namedtuple('Timeslot', ['day', 'period'])`. -/
structure Timeslot where
  day : Int
  period : Int
deriving DecidableEq, Repr

/-- Session, the frozen dataclass shared by `main.py` and `cache.py`. -/
structure Session where
  session_id : String
  class_id : String
  subject_id : String
  teacher_id : String
  room_id : Option String
deriving DecidableEq, Repr

/-- Room record as loaded by `main.load_rooms` (the `type` column is the
room kind, `'Theory'` marking a general-purpose room). -/
structure Room where
  name : String
  capacity : Int
  type : String
deriving DecidableEq, Repr

/-- Class record as loaded by `load_classes`. -/
structure ClassInfo where
  name : String
  size : Int
deriving DecidableEq, Repr

/-- Teacher record as loaded by `main.load_teachers`. -/
structure TeacherInfo where
  name : String
  seniority : Int
  max_load_day : Int
  max_load_week : Int
deriving DecidableEq, Repr

/-- Subject record as loaded by `main.load_subjects`. -/
structure Subject where
  name : String
  duration : Int
  required_room_type : String
  viable_rooms : List String
  is_optional : Bool
deriving DecidableEq, Repr

/-! ### Home room assignment (`main.assign_home_rooms`)

The Python code groups the theory rooms by display name and the classes
by a base identifier obtained with `re.split(r'([^a-zA-Z0-9])', class_id)`,
sorts both collections of groups, and zips per-position groups. -/

/-- Split a character list the way `re.split(r'([^a-zA-Z0-9])', s)` does:
alternating maximal alphanumeric runs and single separator characters,
separators kept.  The result always starts and ends with a (possibly
empty) run. -/
def splitAux : List Char → List Char → List String
  | [], cur => [String.mk cur.reverse]
  | c :: cs, cur =>
    if c.isAlpha || c.isDigit then splitAux cs (c :: cur)
    else String.mk cur.reverse :: String.mk [c] :: splitAux cs []

/-- Model of `re.split(r'([^a-zA-Z0-9])', class_id)`. -/
def splitParts (s : String) : List String := splitAux s.data []

/-- Base identifier of a class id (`main.assign_home_rooms`): drop the
last separator and final segment if there is a separator, otherwise
drop the last character. -/
def base_name (class_id : String) : String :=
  let parts := splitParts class_id
  if parts.length > 2 then String.join (parts.dropLast.dropLast)
  else class_id.dropRight 1

/-- Room groups: theory rooms bucketed by display name, the buckets
sorted by name and each bucket sorted by room id
(`rooms_by_name` and `sorted_room_groups` in `assign_home_rooms`). -/
def sortedRoomGroups (rooms : List (String × Room)) : List (List String) :=
  let tr := rooms.filter (fun r => r.2.type == "Theory")
  let names := (tr.map (fun r => r.2.name)).dedup
  (sortBy strLe names).map (fun n =>
    sortBy strLe ((tr.filter (fun r => r.2.name == n)).map (fun r => r.1)))

/-- Class groups: class ids bucketed by `base_name`, buckets sorted by
base name and each bucket sorted by class id
(`classes_by_base` and `sorted_class_groups` in `assign_home_rooms`). -/
def sortedClassGroups (classIds : List String) : List (List String) :=
  let bases := (classIds.map base_name).dedup
  (sortBy strLe bases).map (fun b =>
    sortBy strLe (classIds.filter (fun c => base_name c == b)))

/-- Pair the class groups with the room groups position by position,
zipping the members of same-size groups and raising `ValueError` on the
first size mismatch, exactly like the final loop of `assign_home_rooms`. -/
def pairGroups : List (List String) → List (List String) →
    Except String (List (String × String))
  | [], _ => Except.ok []
  | _ :: _, [] =>
    Except.error "Not enough room groups to assign to all class groups."
  | cg :: cgs, rg :: rgs =>
    if cg.length ≠ rg.length then
      Except.error "Mismatch in size for class group and room group."
    else
      match pairGroups cgs rgs with
      | Except.error e => Except.error e
      | Except.ok rest => Except.ok (cg.zip rg ++ rest)

/-- Model of `main.assign_home_rooms`.  `Except.error` models the
`ValueError` raised on a group-count or group-size mismatch; the ok
value is the `home_room_map` as an association list. -/
def assign_home_rooms (classes : List (String × ClassInfo))
    (rooms : List (String × Room)) : Except String (List (String × String)) :=
  let scg := sortedClassGroups (classes.map (fun c => c.1))
  let srg := sortedRoomGroups rooms
  if scg.length > srg.length then
    Except.error "Not enough room groups to assign to all class groups."
  else pairGroups scg srg

/-! ### Session expansion (`main.load_curriculum`)

The CSV layer is modelled by in-memory demand lines whose fields are
`Option`-valued: `none` is a pandas `NaN` (a missing cell).  The
`dropna(subset=required_cols)` call becomes a filter on the four
required fields, and the global `idx` counter threading is explicit. -/

/-- Curriculum demand line as read from `curriculum.csv`. -/
structure DemandLine where
  class_id : Option String
  subject_id : Option String
  teacher_id : Option String
  periods_per_week : Option Int
  room_id : Option String
deriving DecidableEq, Repr

/-- A line survives `df.dropna(subset=required_cols)` iff the four
required fields are present. -/
def lineComplete (l : DemandLine) : Bool :=
  l.class_id.isSome && l.subject_id.isSome &&
    l.teacher_id.isSome && l.periods_per_week.isSome

/-- Fixed room of a line: present, and non-empty after stripping
(`pd.notna(row['room_id']) and str(row['room_id']).strip()`). -/
def fixedRoomOf (l : DemandLine) : Option String :=
  match l.room_id with
  | none => none
  | some r => if r.trim ≠ "" then some (r.trim) else none

/-- Sessions minted for one demand line, `idx` being the value of the
global counter before this line's first session. -/
def expandLine (idx : Nat) (l : DemandLine) : List Session :=
  (List.range (l.periods_per_week.getD 0).toNat).map (fun k =>
    { session_id := mkSessionId (idx + k + 1)
      class_id := l.class_id.getD ""
      subject_id := l.subject_id.getD ""
      teacher_id := l.teacher_id.getD ""
      room_id := fixedRoomOf l })

/-- Number of sessions a line expands to (`range(row['periods_per_week'])`;
a non-positive count yields no sessions, as in Python). -/
def lineCount (l : DemandLine) : Nat := (l.periods_per_week.getD 0).toNat

/-- Expansion loop of `load_curriculum` with the running counter. -/
def expandAux (idx : Nat) : List DemandLine → List Session
  | [] => []
  | l :: ls => expandLine idx l ++ expandAux (idx + lineCount l) ls

/-- Model of `main.load_curriculum` applied to already-parsed lines:
drop the incomplete rows, then expand each remaining row into
`periods_per_week` sessions with globally increasing fresh ids. -/
def load_curriculum (lines : List DemandLine) : List Session :=
  expandAux 0 (lines.filter lineComplete)

/-! ### OR-Tools solver model (`main.ORTimetableSolver`)

The CP-SAT engine itself is external; it is abstracted by an oracle
consisting of a termination status and a boolean valuation of the
decision variables.  What is embedded is the code of the class: which
decision variables exist (`_create_decision_variables`, including its
`dict[...]` lookups that raise `KeyError`, modelled as `Except.error`),
and how `solve` turns the oracle's answer into the returned pair. -/

/-- Termination status of `cp_model.CpSolver().Solve`. -/
inductive CpStatus where
  | OPTIMAL
  | FEASIBLE
  | INFEASIBLE
  | MODEL_INVALID
  | UNKNOWN
deriving DecidableEq, Repr

/-- A decision-variable key `(session_id, timeslot, room_id)`. -/
abbrev VarKey : Type := String × Timeslot × String

/-- Room filter of the lab branch of `_create_decision_variables`:
keep each viable room id that exists and whose capacity fits the class
size.  The class lookup `self.classes[s.class_id]['size']` is reached
only after `r_id in self.rooms` succeeds, and raises `KeyError`
(`Except.error`) when the class id is unknown. -/
def labRoomFilter (classes : List (String × ClassInfo))
    (rooms : List (String × Room)) (cid : String) :
    List String → Except String (List String)
  | [] => Except.ok []
  | r :: rest =>
    match List.lookup r rooms with
    | none => labRoomFilter classes rooms cid rest
    | some info =>
      match List.lookup cid classes with
      | none => Except.error "KeyError: class_id"
      | some cls =>
        match labRoomFilter classes rooms cid rest with
        | Except.error e => Except.error e
        | Except.ok l =>
          Except.ok (if cls.size ≤ info.capacity then r :: l else l)

/-- Feasible room set of one session in `_create_decision_variables`.
`subject = self.subjects[s.subject_id]` raises `KeyError` on an unknown
subject id.  The lab branch is taken only when the required room type
is `'Lab'` and the viable-room list is non-empty (Python truthiness of
`subject.get('viable_rooms')`); otherwise the session gets its home
room, or no room at all if the class has none. -/
def possible_rooms_for (subjects : List (String × Subject))
    (classes : List (String × ClassInfo)) (rooms : List (String × Room))
    (home_room_map : List (String × String)) (s : Session) :
    Except String (List String) :=
  match List.lookup s.subject_id subjects with
  | none => Except.error "KeyError: subject_id"
  | some subject =>
    if subject.required_room_type == "Lab" && !subject.viable_rooms.isEmpty then
      labRoomFilter classes rooms s.class_id subject.viable_rooms
    else
      Except.ok (match List.lookup s.class_id home_room_map with
        | some hr => [hr]
        | none => [])

/-- Keys of the decision variables created by
`_create_decision_variables`: one per (session, timeslot, possible
room), in construction order. -/
def create_decision_variables (subjects : List (String × Subject))
    (classes : List (String × ClassInfo)) (rooms : List (String × Room))
    (home_room_map : List (String × String)) (timeslots : List Timeslot) :
    List Session → Except String (List VarKey)
  | [] => Except.ok []
  | s :: ss =>
    match possible_rooms_for subjects classes rooms home_room_map s with
    | Except.error e => Except.error e
    | Except.ok prs =>
      match create_decision_variables subjects classes rooms home_room_map
          timeslots ss with
      | Except.error e => Except.error e
      | Except.ok rest =>
        Except.ok ((timeslots.flatMap (fun t =>
          prs.map (fun r => ((s.session_id, t, r) : VarKey)))) ++ rest)

/-- Python `solution[sid] = v`: replace an existing binding in place or
append a new one. -/
def dictInsert (k : String) (v : Timeslot × String) :
    List (String × Timeslot × String) → List (String × Timeslot × String)
  | [] => [(k, v)]
  | (k1, v1) :: l => if k1 == k then (k, v) :: l else (k1, v1) :: dictInsert k v l

/-- Extraction loop of `ORTimetableSolver.solve`: record `sid → (t, r)`
for every decision variable the oracle valuation sets to true. -/
def extract_solution (keys : List VarKey) (value : VarKey → Bool) :
    List (String × Timeslot × String) :=
  keys.foldl (fun sol key =>
    if value key then dictInsert key.1 key.2 sol else sol) []

/-- Tail of `ORTimetableSolver.solve` after the oracle returns: success
with the extracted assignment on `OPTIMAL`/`FEASIBLE`, failure with an
empty assignment otherwise. -/
def or_solve (keys : List VarKey) (status : CpStatus) (value : VarKey → Bool) :
    Bool × List (String × Timeslot × String) :=
  if status = CpStatus.OPTIMAL ∨ status = CpStatus.FEASIBLE then
    (true, extract_solution keys value)
  else (false, [])

/-- Model of `ORTimetableSolver.solve` end to end: build the decision
variables (possibly raising `KeyError`), hand the model to the abstract
CP solver, and post-process its status and valuation. -/
def ORTimetableSolver_solve (subjects : List (String × Subject))
    (classes : List (String × ClassInfo)) (rooms : List (String × Room))
    (home_room_map : List (String × String)) (sessions : List Session)
    (timeslots : List Timeslot) (status : CpStatus) (value : VarKey → Bool) :
    Except String (Bool × List (String × Timeslot × String)) :=
  match create_decision_variables subjects classes rooms home_room_map
      timeslots sessions with
  | Except.error e => Except.error e
  | Except.ok keys => Except.ok (or_solve keys status value)

/-- Result record of `main.run` (the `output_dir`/`data_dir` path fields
are environment constants and are omitted; the assignment handed to
`create_output_tables` is kept as an observable field). -/
structure RunResult where
  status : String
  sessions_total : Nat
  sessions_scheduled : Nat
  assignment : List (String × Timeslot × String)
deriving DecidableEq, Repr

/-- Ids of subjects flagged optional (`optional_subject_ids` in
`main.run`). -/
def optionalSubjectIds (subjects : List (String × Subject)) : List String :=
  (subjects.filter (fun p => p.2.is_optional)).map (fun p => p.1)

/-- Sessions surviving the unconditional optional-subject filter of
`main.run` (the `optional_included` flag is hard-coded `False`). -/
def nonOptionalSessions (subjects : List (String × Subject))
    (sessions : List Session) : List Session :=
  sessions.filter (fun s =>
    !((optionalSubjectIds subjects).contains s.subject_id))

/-- Restriction of the class table to classes present in the
curriculum (`active_classes` in `main.run`). -/
def activeClasses (classes : List (String × ClassInfo))
    (sessions : List Session) : List (String × ClassInfo) :=
  classes.filter (fun c => (sessions.map (fun s => s.class_id)).contains c.1)

/-- Model of `main.run` on already-loaded data.  The `try/except
ValueError` around `assign_home_rooms` becomes the match on `Except`;
an uncaught `KeyError` from variable creation propagates as
`Except.error`. -/
def run (classes : List (String × ClassInfo)) (rooms : List (String × Room))
    (subjects : List (String × Subject)) (timeslots : List Timeslot)
    (lines : List DemandLine) (status : CpStatus) (value : VarKey → Bool) :
    Except String RunResult :=
  let sessions := load_curriculum lines
  match assign_home_rooms (activeClasses classes sessions) rooms with
  | Except.error e =>
    Except.ok
      { status := ("ERROR: " ++ e), sessions_total := 0,
        sessions_scheduled := 0, assignment := [] }
  | Except.ok home_room_map =>
    let sessions2 := nonOptionalSessions subjects sessions
    if sessions2.isEmpty then
      Except.ok
        { status :=
            "WARNING: No valid session data found. Cannot generate a timetable.",
          sessions_total := 0, sessions_scheduled := 0, assignment := [] }
    else
      match ORTimetableSolver_solve subjects classes rooms home_room_map
          sessions2 timeslots status value with
      | Except.error e => Except.error e
      | Except.ok (success, assignment) =>
        Except.ok
          { status := (if success then "SUCCESS: Timetable generated."
              else "WARNING: No solution found."),
            sessions_total := sessions2.length,
            sessions_scheduled := assignment.length,
            assignment := assignment }

/-! ### Fallback backtracking solver (`cache.TimetableSolver`)

Wall-clock time is abstracted by an oracle `timeUp : Nat → Bool`
giving the result of the k-th `_time_exceeded()` call; a counter
threaded through the search indexes the calls.  The recursion of
`backtrack` is paced by a `fuel` argument; its depth is bounded by the
number of unassigned sessions plus one, so the fuel passed by `solve`
is never exhausted (and none of the theorems below depend on the fuel
value).  The three `dict`-valued occupancy indexes hold only `True`
values in the source, so each is modelled by the list of its keys;
under the mirror invariant proved below a key is never inserted twice,
making cons/erase-first-occurrence agree with dict insert/delete. -/

/-- Room record of `cache.load_rooms` (name and capacity only). -/
structure BTRoom where
  name : String
  capacity : Int
deriving DecidableEq, Repr

/-- Inputs of `cache.TimetableSolver` plus the time oracle. -/
structure BTContext where
  sessions : List Session
  timeslots : List Timeslot
  room_ids : List String
  rooms : List (String × BTRoom)
  classes : List (String × ClassInfo)
  unavailability : List (String × List Timeslot)
  timeUp : Nat → Bool

/-- Mutable search state of the solver: the assignment and the three
occupancy indexes. -/
structure BTState where
  assignment : List (String × Timeslot × String)
  teacher_busy : List (String × Timeslot)
  class_busy : List (String × Timeslot)
  room_busy : List (String × Timeslot)
deriving DecidableEq, Repr

/-- Empty state at `solve` entry. -/
def initBTState : BTState :=
  { assignment := [], teacher_busy := [], class_busy := [], room_busy := [] }

/-- Unavailable slots of a teacher (`defaultdict(set)`: empty by default). -/
def unavailOf (ctx : BTContext) (tid : String) : List Timeslot :=
  (List.lookup tid ctx.unavailability).getD []

/-- Size lookup `self.classes[cid]['size']`.  Python raises `KeyError`
for an unknown id; the default value stands in for that case, which the
theorems below never exercise. -/
def classSize (ctx : BTContext) (cid : String) : Int :=
  ((List.lookup cid ctx.classes).map (fun c => c.size)).getD 0

/-- Capacity lookup `self.rooms[r]['capacity']`; same remark as
`classSize` about unknown ids. -/
def roomCapacity (ctx : BTContext) (rid : String) : Int :=
  ((List.lookup rid ctx.rooms).map (fun r => r.capacity)).getD 0

/-- Per-session static domain of `_compute_initial_domains`: timeslots
the teacher is available for, paired with each candidate room (the
fixed room if any, else every room) that fits the class size. -/
def compute_initial_domain (ctx : BTContext) (s : Session) :
    List (Timeslot × String) :=
  ctx.timeslots.flatMap (fun t =>
    if (unavailOf ctx s.teacher_id).contains t then []
    else
      ((match s.room_id with
        | some r => [r]
        | none => ctx.room_ids).filter (fun r =>
          decide (classSize ctx s.class_id ≤ roomCapacity ctx r))).map
        (fun r => (t, r)))

/-- Lookup `next(x for x in self.sessions if x.session_id == sid)` and
`sessions_by_id[sid]`. -/
def findSess (sessions : List Session) (sid : String) : Option Session :=
  sessions.find? (fun x => x.session_id == sid)

/-- The dictionary `self.initial_domains` evaluated at a session id;
for the ids of `sessions` this is exactly the precomputed entry. -/
def initialDomain (ctx : BTContext) (sid : String) : List (Timeslot × String) :=
  match findSess ctx.sessions sid with
  | some s => compute_initial_domain ctx s
  | none => []

/-- Model of `_is_consistent`: the three occupancy indexes admit the
placement. -/
def is_consistent (st : BTState) (s : Session) (t : Timeslot) (r : String) :
    Bool :=
  !(decide ((s.teacher_id, t) ∈ st.teacher_busy)) &&
  !(decide ((s.class_id, t) ∈ st.class_busy)) &&
  !(decide ((r, t) ∈ st.room_busy))

/-- Model of `_place`: record the assignment and mark the three keys. -/
def place (st : BTState) (s : Session) (t : Timeslot) (r : String) : BTState :=
  { assignment := (s.session_id, t, r) :: st.assignment
    teacher_busy := (s.teacher_id, t) :: st.teacher_busy
    class_busy := (s.class_id, t) :: st.class_busy
    room_busy := (r, t) :: st.room_busy }

/-- Model of `_remove`: delete the assignment entry and the three keys. -/
def removePlace (st : BTState) (s : Session) (t : Timeslot) (r : String) :
    BTState :=
  { assignment := st.assignment.eraseP (fun e => decide (e.1 = s.session_id))
    teacher_busy := st.teacher_busy.eraseP (fun e => decide (e = (s.teacher_id, t)))
    class_busy := st.class_busy.eraseP (fun e => decide (e = (s.class_id, t)))
    room_busy := st.room_busy.eraseP (fun e => decide (e = (r, t))) }

/-- Currently consistent domain size of a session, as computed by the
MRV loop (`len(initial_domains[sid]) - pruned`). -/
def domainSize (ctx : BTContext) (st : BTState) (sid : String) : Nat :=
  match findSess ctx.sessions sid with
  | some s =>
    (initialDomain ctx sid).length -
      (initialDomain ctx sid).countP (fun v => !(is_consistent st s v.1 v.2))
  | none => (initialDomain ctx sid).length

/-- Model of `_select_unassigned_session`: first unassigned session of
strictly minimal current domain size, starting from the sentinel bound
`10 ** 9`. -/
def select_unassigned (ctx : BTContext) (st : BTState) (un : List String) :
    Option String :=
  (un.foldl (fun best sid =>
      if domainSize ctx st sid < best.2 then (some sid, domainSize ctx st sid)
      else best)
    ((none : Option String), (1000000000 : Nat))).1

/-- Domain value order of the backtracking loop: sort by (day, period). -/
def domLe (a b : Timeslot × String) : Bool :=
  decide (a.1.day < b.1.day) ||
    (decide (a.1.day = b.1.day) && decide (a.1.period ≤ b.1.period))

/-- Inner `for (t, r) in domain` loop of `backtrack`: time check, then
consistency check, place, recurse (through the callback `bt`, the
recursive `backtrack` one level down), and undo-and-continue on
failure.  Returns the success flag together with the advanced time
counter, the state and the unassigned list. -/
def tryValues (ctx : BTContext)
    (bt : Nat → BTState → List String → Bool × Nat × BTState × List String)
    (clock : Nat) (st : BTState) (un : List String) (s : Session) :
    List (Timeslot × String) → Bool × Nat × BTState × List String
  | [] => (false, clock, st, un)
  | (t, r) :: rest =>
    if ctx.timeUp clock then (false, clock + 1, st, un)
    else if is_consistent st s t r then
      match bt (clock + 1) (place st s t r) (un.erase s.session_id) with
      | (true, c2, st2, un2) => (true, c2, st2, un2)
      | (false, c2, st2, un2) =>
        tryValues ctx bt c2 (removePlace st2 s t r)
          (un2 ++ [s.session_id]) s rest
    else tryValues ctx bt (clock + 1) st un s rest

/-- Model of the recursive `backtrack()` closure inside
`TimetableSolver.solve`, paced by structural fuel.  The `none`
fallbacks mirror places where the Python code would raise
(`sessions_by_id[None]` / `StopIteration`); they are unreachable under
the side conditions of the theorems below. -/
def backtrack (ctx : BTContext) :
    Nat → Nat → BTState → List String → Bool × Nat × BTState × List String
  | 0, clock, st, un => (false, clock, st, un)
  | fuel1 + 1, clock, st, un =>
    if ctx.timeUp clock then (false, clock + 1, st, un)
    else if un.isEmpty then (true, clock + 1, st, un)
    else
      match select_unassigned ctx st un with
      | none => (false, clock + 1, st, un)
      | some sid =>
        match findSess ctx.sessions sid with
        | none => (false, clock + 1, st, un)
        | some s =>
          tryValues ctx (backtrack ctx fuel1) (clock + 1) st un s
            (sortBy domLe (initialDomain ctx sid))

/-- Model of `cache.TimetableSolver.solve`: run the backtracking search
from the empty state over all session ids and return the success flag
with the final assignment.  The fuel `sessions.length + 1` dominates
the recursion depth, which never exceeds the unassigned count plus one. -/
def TimetableSolver_solve (ctx : BTContext) :
    Bool × List (String × Timeslot × String) :=
  let res := backtrack ctx (ctx.sessions.length + 1) 0 initBTState
    (ctx.sessions.map (fun s => s.session_id))
  (res.1, res.2.2.1.assignment)

/-! ### Home-room allocator: failure contract (claim C1) -/

/-- Two group collections have matched groups of different sizes at
some common ordinal position. -/
def sizeMismatch (cgs rgs : List (List String)) : Prop :=
  ∃ i, ∃ hc : i < cgs.length, ∃ hr : i < rgs.length,
    (cgs.get ⟨i, hc⟩).length ≠ (rgs.get ⟨i, hr⟩).length

theorem sizeMismatch_nil (rgs : List (List String)) : ¬ sizeMismatch [] rgs := by
  rintro ⟨i, hc, _, _⟩
  simp at hc

theorem sizeMismatch_cons {cg rg : List String} {cgs rgs : List (List String)} :
    sizeMismatch (cg :: cgs) (rg :: rgs) ↔
      cg.length ≠ rg.length ∨ sizeMismatch cgs rgs := by
  constructor
  · rintro ⟨i, hc, hr, hne⟩
    cases i with
    | zero => exact Or.inl (by simpa using hne)
    | succ j =>
      refine Or.inr ⟨j, by simpa using hc, by simpa using hr, ?_⟩
      simpa [List.get_eq_getElem] using hne
  · rintro (hne | ⟨j, hc, hr, hne⟩)
    · exact ⟨0, by simp, by simp, by simpa using hne⟩
    · refine ⟨j + 1, by simpa using hc, by simpa using hr, ?_⟩
      simpa [List.get_eq_getElem] using hne

theorem pairGroups_error_iff : ∀ (cgs rgs : List (List String)),
    cgs.length ≤ rgs.length →
    ((∃ e, pairGroups cgs rgs = Except.error e) ↔ sizeMismatch cgs rgs) := by
  intro cgs
  induction cgs with
  | nil =>
    intro rgs _
    simp [pairGroups, sizeMismatch_nil]
  | cons cg cgs ih =>
    intro rgs hlen
    match rgs with
    | [] => simp at hlen
    | rg :: rgs =>
      rw [sizeMismatch_cons]
      by_cases hne : cg.length ≠ rg.length
      · simp [pairGroups, hne]
      · have hrec := ih rgs (by simpa using hlen)
        simp only [pairGroups, hne, if_false]
        rw [← hrec]
        constructor
        · rintro ⟨e, he⟩
          cases hpg : pairGroups cgs rgs with
          | error e1 => exact Or.inr ⟨e1, rfl⟩
          | ok rest => rw [hpg] at he; simp at he
        · rintro (h | ⟨e, he⟩)
          · exact h.elim
          · exact ⟨e, by rw [he]⟩

/-- Claim C1.  The home-room allocator signals an unrecoverable
configuration error (it raises, returning no map at all) exactly when
there are more class groups than room groups or some matched pair of
groups differ in size; and whenever it raises, `run` returns the error
status with zero session counts, independently of the CP solver oracle
(no solver is consulted). -/
theorem home_room_failure_contract
    (classes : List (String × ClassInfo)) (rooms : List (String × Room))
    (subjects : List (String × Subject)) (timeslots : List Timeslot)
    (lines : List DemandLine) :
    ((∃ e, assign_home_rooms classes rooms = Except.error e) ↔
      ((sortedClassGroups (classes.map (fun c => c.1))).length >
          (sortedRoomGroups rooms).length ∨
        sizeMismatch (sortedClassGroups (classes.map (fun c => c.1)))
          (sortedRoomGroups rooms))) ∧
    (∀ e, assign_home_rooms
        (activeClasses classes (load_curriculum lines)) rooms =
          Except.error e →
      ∀ (status : CpStatus) (value : VarKey → Bool),
        run classes rooms subjects timeslots lines status value =
          Except.ok
            { status := ("ERROR: " ++ e), sessions_total := 0,
              sessions_scheduled := 0, assignment := [] }) := by
  constructor
  · by_cases hgt : (sortedClassGroups (classes.map (fun c => c.1))).length >
        (sortedRoomGroups rooms).length
    · simp only [assign_home_rooms, hgt, if_true]
      exact ⟨fun _ => Or.inl trivial, fun _ => ⟨_, rfl⟩⟩
    · simp only [assign_home_rooms, hgt, if_false]
      rw [pairGroups_error_iff _ _ (by omega)]
      simp [hgt]
  · intro e he status value
    simp only [run, he]

/-- Witness for C1 at a concrete mismatched configuration: two class
sections against a single-room group. -/
theorem home_room_failure_contract_witness :
    run [("11A", ⟨"sec A", 30⟩), ("11B", ⟨"sec B", 30⟩)]
        [("R101", ⟨"r1", 40, "Theory"⟩)]
        [("M", ⟨"Math", 1, "", [], false⟩)] [⟨1, 1⟩]
        [⟨some "11A", some "M", some "T1", some 1, none⟩,
         ⟨some "11B", some "M", some "T1", some 1, none⟩]
        CpStatus.FEASIBLE (fun _ => true) =
      Except.ok
        { status :=
            ("ERROR: " ++ "Mismatch in size for class group and room group."),
          sessions_total := 0, sessions_scheduled := 0, assignment := [] } :=
  (home_room_failure_contract
    [("11A", ⟨"sec A", 30⟩), ("11B", ⟨"sec B", 30⟩)]
    [("R101", ⟨"r1", 40, "Theory"⟩)]
    [("M", ⟨"Math", 1, "", [], false⟩)] [⟨1, 1⟩]
    [⟨some "11A", some "M", some "T1", some 1, none⟩,
     ⟨some "11B", some "M", some "T1", some 1, none⟩]).2
    "Mismatch in size for class group and room group." (by rfl)
    CpStatus.FEASIBLE (fun _ => true)

/-! ### Home-room allocator: success contract (claim C2) -/

theorem keys_nodup_mem_unique {β : Type} {l : List (String × β)}
    (h : (l.map Prod.fst).Nodup) {k : String} {a b : β}
    (ha : (k, a) ∈ l) (hb : (k, b) ∈ l) : a = b := by
  induction l with
  | nil => simp at ha
  | cons p l ih =>
    simp only [List.map_cons, List.nodup_cons] at h
    rcases List.mem_cons.mp ha with ha0 | ha1
    · rcases List.mem_cons.mp hb with hb0 | hb1
      · rw [← ha0] at hb0
        exact (Prod.mk.injEq _ _ _ _ ▸ hb0.symm).2
      · exfalso
        apply h.1
        rw [← ha0]
        simpa using List.mem_map_of_mem Prod.fst hb1
    · rcases List.mem_cons.mp hb with hb0 | hb1
      · exfalso
        apply h.1
        rw [← hb0]
        simpa using List.mem_map_of_mem Prod.fst ha1
      · exact ih h.2 ha1 hb1

theorem pairGroups_ok_maps : ∀ (cgs rgs : List (List String))
    (m : List (String × String)), pairGroups cgs rgs = Except.ok m →
    m = (List.zipWith List.zip cgs rgs).flatten ∧
    m.map Prod.fst = cgs.flatten ∧
    m.map Prod.snd = (rgs.take cgs.length).flatten := by
  intro cgs
  induction cgs with
  | nil =>
    intro rgs m h
    simp only [pairGroups, Except.ok.injEq] at h
    subst h
    simp
  | cons cg cgs ih =>
    intro rgs m h
    match rgs with
    | [] => simp [pairGroups] at h
    | rg :: rgs =>
      simp only [pairGroups] at h
      by_cases hne : cg.length ≠ rg.length
      · simp [hne] at h
      · simp only [hne, if_false] at h
        cases hpg : pairGroups cgs rgs with
        | error e => rw [hpg] at h; simp at h
        | ok rest =>
          rw [hpg] at h
          simp only [Except.ok.injEq] at h
          subst h
          obtain ⟨h1, h2, h3⟩ := ih rgs rest hpg
          have hlen : cg.length = rg.length := by omega
          refine ⟨?_, ?_, ?_⟩
          · rw [List.zipWith_cons_cons, List.flatten_cons, h1]
          · rw [List.map_append, h2, List.map_fst_zip cg rg (le_of_eq hlen),
              List.flatten_cons]
          · rw [List.map_append, h3, List.map_snd_zip cg rg (ge_of_eq hlen),
              List.length_cons, List.take_succ_cons, List.flatten_cons]

theorem sum_map_ite_count {α : Type} [DecidableEq α] (a : α) (k : Nat) :
    ∀ (bases : List α), bases.Nodup →
    (bases.map (fun b => if a = b then k else 0)).sum =
      if a ∈ bases then k else 0 := by
  intro bases
  induction bases with
  | nil => simp
  | cons b bs ih =>
    intro hnd
    simp only [List.nodup_cons] at hnd
    simp only [List.map_cons, List.sum_cons]
    by_cases hab : a = b
    · subst hab
      rw [if_pos rfl, if_pos (List.mem_cons_self a bs), ih hnd.2,
        if_neg hnd.1]
      omega
    · rw [if_neg hab, ih hnd.2]
      by_cases hm : a ∈ bs
      · simp [hm, List.mem_cons, hab]
      · simp [hm, List.mem_cons, hab]

theorem count_filter_key {α : Type} [DecidableEq α] (key : α → String)
    (xs : List α) (a : α) (b : String) :
    (xs.filter (fun x => key x == b)).count a =
      if key a = b then xs.count a else 0 := by
  by_cases h : key a = b
  · rw [if_pos h]
    exact List.count_filter (by simpa using h)
  · rw [if_neg h, List.count_eq_zero]
    intro hmem
    exact h (by simpa using (List.mem_filter.mp hmem).2)

theorem partition_flatten_count {α : Type} [DecidableEq α] (key : α → String)
    (le : α → α → Bool) (xs : List α) (a : α) :
    ((sortBy strLe ((xs.map key).dedup)).map
        (fun b => sortBy le (xs.filter (fun x => key x == b)))).flatten.count a
      = xs.count a := by
  rw [List.count_flatten, List.map_map]
  have hstep : ∀ b ∈ sortBy strLe ((xs.map key).dedup),
      (List.count a ∘ fun b => sortBy le (xs.filter (fun x => key x == b))) b =
        (fun b => if key a = b then xs.count a else 0) b := by
    intro b _
    simp only [Function.comp_apply]
    rw [count_sortBy, count_filter_key]
  rw [List.map_congr_left hstep, sum_map_ite_count (key a) (xs.count a) _
    (sortBy_nodup strLe (List.nodup_dedup (xs.map key)))]
  by_cases hm : a ∈ xs
  · rw [if_pos ((mem_sortBy strLe).mpr (List.mem_dedup.mpr
      (List.mem_map_of_mem key hm)))]
  · have hz : xs.count a = 0 := List.count_eq_zero.mpr hm
    rw [hz]
    by_cases hk : key a ∈ sortBy strLe ((xs.map key).dedup)
    · rw [if_pos hk]
    · rw [if_neg hk]

theorem classGroups_flatten_perm (ids : List String) :
    List.Perm (sortedClassGroups ids).flatten ids := by
  apply List.perm_iff_count.mpr
  intro a
  have h := partition_flatten_count base_name strLe ids a
  simpa [sortedClassGroups] using h

theorem roomGroups_flatten_nodup (rooms : List (String × Room))
    (hr : (rooms.map Prod.fst).Nodup) :
    (sortedRoomGroups rooms).flatten.Nodup := by
  rw [List.nodup_flatten]
  constructor
  · intro l hl
    simp only [sortedRoomGroups, List.mem_map] at hl
    obtain ⟨n, _, rfl⟩ := hl
    apply sortBy_nodup
    have hsub : (((rooms.filter (fun r => r.2.type == "Theory")).filter
        (fun r => r.2.name == n)).map Prod.fst).Sublist (rooms.map Prod.fst) :=
      List.Sublist.map Prod.fst
        ((List.filter_sublist _).trans (List.filter_sublist _))
    have hfst : ((rooms.filter (fun r => r.2.type == "Theory")).filter
        (fun r => r.2.name == n)).map (fun r => r.1) =
        ((rooms.filter (fun r => r.2.type == "Theory")).filter
          (fun r => r.2.name == n)).map Prod.fst := rfl
    rw [hfst]
    exact hr.sublist hsub
  · simp only [sortedRoomGroups]
    rw [List.pairwise_map]
    have hnames : (sortBy strLe
        (((rooms.filter (fun r => r.2.type == "Theory")).map
          (fun r => r.2.name)).dedup)).Nodup :=
      sortBy_nodup strLe (List.nodup_dedup _)
    apply hnames.imp
    intro n1 n2 hne r hr1 hr2
    rw [mem_sortBy] at hr1 hr2
    simp only [List.mem_map] at hr1 hr2
    obtain ⟨⟨k1, v1⟩, hp1, hk1⟩ := hr1
    obtain ⟨⟨k2, v2⟩, hp2, hk2⟩ := hr2
    rw [List.mem_filter] at hp1 hp2
    obtain ⟨hp1t, hp1n⟩ := hp1
    obtain ⟨hp2t, hp2n⟩ := hp2
    rw [List.mem_filter] at hp1t hp2t
    have hkk : k1 = k2 := by simp only at hk1 hk2; rw [hk1, hk2]
    subst hkk
    have hv : v1 = v2 := keys_nodup_mem_unique hr hp1t.1 hp2t.1
    apply hne
    have e1 : v1.name = n1 := by simpa using hp1n
    have e2 : v2.name = n2 := by simpa using hp2n
    rw [← e1, ← e2, hv]

theorem flatten_take_sublist {α : Type} (L : List (List α)) (k : Nat) :
    ((L.take k).flatten).Sublist L.flatten := by
  conv_rhs => rw [← List.take_append_drop k L]
  rw [List.flatten_append]
  exact List.sublist_append_left _ _

/-- Claim C2.  When the home-room allocator returns a map (given the
dict-key invariants that class ids and room ids are unique), the map is
total on the input classes, single-valued, injective into the theory
(general-purpose) rooms, and is exactly the position-wise zip of the
name-sorted class groups with the name-sorted room groups. -/
theorem home_room_success_bijection
    (classes : List (String × ClassInfo)) (rooms : List (String × Room))
    (m : List (String × String))
    (hc : (classes.map Prod.fst).Nodup) (hr : (rooms.map Prod.fst).Nodup)
    (hok : assign_home_rooms classes rooms = Except.ok m) :
    m = (List.zipWith List.zip (sortedClassGroups (classes.map Prod.fst))
        (sortedRoomGroups rooms)).flatten ∧
    (∀ c ∈ classes.map Prod.fst, ∃ r, (c, r) ∈ m) ∧
    (∀ p ∈ m, p.1 ∈ classes.map Prod.fst) ∧
    (m.map Prod.fst).Nodup ∧
    (m.map Prod.snd).Nodup ∧
    (∀ p ∈ m, ∃ info, (p.2, info) ∈ rooms ∧ info.type = "Theory") := by
  simp only [assign_home_rooms] at hok
  by_cases hgt : (sortedClassGroups (classes.map (fun c => c.1))).length >
      (sortedRoomGroups rooms).length
  · rw [if_pos hgt] at hok
    exact absurd hok (by simp)
  · rw [if_neg hgt] at hok
    obtain ⟨h1, h2, h3⟩ := pairGroups_ok_maps _ _ _ hok
    have hperm : List.Perm (sortedClassGroups (classes.map Prod.fst)).flatten
        (classes.map Prod.fst) := classGroups_flatten_perm _
    have hfst : (m.map Prod.fst).Nodup := by
      rw [h2]
      exact hperm.nodup_iff.mpr hc
    have hsndsub : (m.map Prod.snd).Sublist (sortedRoomGroups rooms).flatten := by
      rw [h3]
      exact flatten_take_sublist _ _
    refine ⟨h1, ?_, ?_, hfst, ?_, ?_⟩
    · intro c hcm
      have : c ∈ m.map Prod.fst := by
        rw [h2]
        exact hperm.mem_iff.mpr hcm
      obtain ⟨p, hpm, hp1⟩ := List.mem_map.mp this
      refine ⟨p.2, ?_⟩
      rw [← hp1, Prod.mk.eta]
      exact hpm
    · intro p hpm
      have : p.1 ∈ m.map Prod.fst := List.mem_map_of_mem Prod.fst hpm
      rw [h2] at this
      exact hperm.mem_iff.mp this
    · exact List.Nodup.sublist hsndsub (roomGroups_flatten_nodup rooms hr)
    · intro p hpm
      have hmem : p.2 ∈ (sortedRoomGroups rooms).flatten :=
        hsndsub.mem (List.mem_map_of_mem Prod.snd hpm)
      obtain ⟨g, hg, hpg⟩ := List.mem_flatten.mp hmem
      simp only [sortedRoomGroups, List.mem_map] at hg
      obtain ⟨n, _, rfl⟩ := hg
      rw [mem_sortBy] at hpg
      obtain ⟨q, hq, hq1⟩ := List.mem_map.mp hpg
      rw [List.mem_filter] at hq
      obtain ⟨hqt, _⟩ := hq
      rw [List.mem_filter] at hqt
      refine ⟨q.2, ?_, by simpa using hqt.2⟩
      rw [← hq1, Prod.mk.eta]
      exact hqt.1

/-- Witness for C2 at a concrete two-section configuration. -/
theorem home_room_success_bijection_witness :
    (∀ c ∈ ([("11A", ⟨"sec A", 30⟩), ("11B", ⟨"sec B", 30⟩)] :
        List (String × ClassInfo)).map Prod.fst,
      ∃ r, (c, r) ∈ [("11A", "R101"), ("11B", "R102")]) ∧
    ([("11A", "R101"), ("11B", "R102")].map
      (Prod.snd (α := String) (β := String))).Nodup :=
  ⟨(home_room_success_bijection
      [("11A", ⟨"sec A", 30⟩), ("11B", ⟨"sec B", 30⟩)]
      [("R101", ⟨"r1", 40, "Theory"⟩), ("R102", ⟨"r1", 40, "Theory"⟩)]
      [("11A", "R101"), ("11B", "R102")]
      (by decide) (by decide) (by rfl)).2.1,
   (home_room_success_bijection
      [("11A", ⟨"sec A", 30⟩), ("11B", ⟨"sec B", 30⟩)]
      [("R101", ⟨"r1", 40, "Theory"⟩), ("R102", ⟨"r1", 40, "Theory"⟩)]
      [("11A", "R101"), ("11B", "R102")]
      (by decide) (by decide) (by rfl)).2.2.2.2.1⟩

/-! ### Session expander (claims C7 and C8) -/

theorem length_expandLine (idx : Nat) (l : DemandLine) :
    (expandLine idx l).length = lineCount l := by
  simp [expandLine, lineCount]

theorem expandAux_session_id_bound :
    ∀ (ls : List DemandLine) (idx : Nat), ∀ s ∈ expandAux idx ls,
      ∃ j, idx < j ∧ j ≤ idx + ((ls.map lineCount).sum) ∧
        s.session_id = mkSessionId j := by
  intro ls
  induction ls with
  | nil => intro idx s hs; simp [expandAux] at hs
  | cons l ls ih =>
    intro idx s hs
    rcases List.mem_append.mp hs with hh | ht
    · simp only [expandLine, List.mem_map, List.mem_range] at hh
      obtain ⟨k, hk, rfl⟩ := hh
      have hk2 : k < lineCount l := hk
      exact ⟨idx + k + 1, by omega,
        by simp only [List.map_cons, List.sum_cons]; omega, rfl⟩
    · obtain ⟨j, hj1, hj2, hj3⟩ := ih (idx + lineCount l) s ht
      refine ⟨j, by omega, ?_, hj3⟩
      simp only [List.map_cons, List.sum_cons]
      omega

theorem expandAux_ids_nodup :
    ∀ (ls : List DemandLine) (idx : Nat),
      ((expandAux idx ls).map (fun s => s.session_id)).Nodup := by
  intro ls
  induction ls with
  | nil => intro idx; simp [expandAux]
  | cons l ls ih =>
    intro idx
    simp only [expandAux, List.map_append]
    apply List.Nodup.append
    · simp only [expandLine, List.map_map]
      apply List.Nodup.map
      · intro a b hab
        simp only [Function.comp_apply] at hab
        have := mkSessionId_injective hab
        omega
      · exact List.nodup_range _
    · exact ih (idx + lineCount l)
    · intro x hx hx2
      simp only [expandLine, List.map_map, List.mem_map, List.mem_range,
        Function.comp_apply] at hx
      obtain ⟨k, hk, rfl⟩ := hx
      have hk2 : k < lineCount l := hk
      obtain ⟨s, hs, hsid⟩ := List.mem_map.mp hx2
      obtain ⟨j, hj1, _, hj3⟩ := expandAux_session_id_bound ls (idx + lineCount l) s hs
      rw [hj3] at hsid
      have := mkSessionId_injective hsid
      omega

theorem expandAux_block : ∀ (ls : List DemandLine) (idx k : Nat)
    (hk : k < ls.length),
    ((expandAux idx ls).drop (((ls.take k).map lineCount).sum)).take
        (lineCount (ls.get ⟨k, hk⟩)) =
      expandLine (idx + ((ls.take k).map lineCount).sum) (ls.get ⟨k, hk⟩) := by
  intro ls
  induction ls with
  | nil => intro idx k hk; simp at hk
  | cons l ls ih =>
    intro idx k hk
    cases k with
    | zero =>
      simp only [List.take_zero, List.map_nil, List.sum_nil, List.drop_zero,
        expandAux, List.get, Nat.add_zero]
      rw [← length_expandLine idx l, List.take_left]
    | succ k1 =>
      have hk1 : k1 < ls.length := by simpa using hk
      have hblk := ih (idx + lineCount l) k1 hk1
      simp only [List.take_succ_cons, List.map_cons, List.sum_cons, expandAux,
        List.get]
      rw [← length_expandLine idx l, List.drop_append, length_expandLine, hblk]
      ring_nf

theorem expandAux_length : ∀ (ls : List DemandLine) (idx : Nat),
    (expandAux idx ls).length = (ls.map lineCount).sum := by
  intro ls
  induction ls with
  | nil => intro idx; simp [expandAux]
  | cons l ls ih =>
    intro idx
    simp only [expandAux, List.length_append, length_expandLine, ih,
      List.map_cons, List.sum_cons]

theorem load_curriculum_length (lines : List DemandLine)
    (hall : ∀ l ∈ lines, lineComplete l = true) :
    (load_curriculum lines).length = (lines.map lineCount).sum := by
  have hf : lines.filter lineComplete = lines := List.filter_eq_self.mpr hall
  rw [load_curriculum, hf]
  exact expandAux_length lines 0

/-- Claim C7.  For complete demand lines the expander output decomposes
into consecutive blocks: the k-th block consists of exactly
`periods_per_week` sessions carrying the k-th line's class, subject,
teacher and fixed room, in input line order, and all session ids across
the whole output are pairwise distinct. -/
theorem load_curriculum_expansion (lines : List DemandLine)
    (hall : ∀ l ∈ lines, lineComplete l = true) :
    ((load_curriculum lines).map (fun s => s.session_id)).Nodup ∧
    (load_curriculum lines).length = (lines.map lineCount).sum ∧
    (∀ k, ∀ hk : k < lines.length,
      ((load_curriculum lines).drop (((lines.take k).map lineCount).sum)).take
          (lineCount (lines.get ⟨k, hk⟩)) =
        expandLine (((lines.take k).map lineCount).sum) (lines.get ⟨k, hk⟩)) := by
  have hf : lines.filter lineComplete = lines := List.filter_eq_self.mpr hall
  refine ⟨?_, load_curriculum_length lines hall, ?_⟩
  · rw [load_curriculum, hf]
    exact expandAux_ids_nodup lines 0
  · intro k hk
    have := expandAux_block lines 0 k hk
    rw [load_curriculum, hf]
    simpa using this

/-- Witness for C7 at a two-line concrete curriculum. -/
theorem load_curriculum_expansion_witness :
    ((load_curriculum [⟨some "C1", some "M", some "T1", some 2, none⟩,
        ⟨some "C2", some "E", some "T2", some 1, none⟩]).map
      (fun s => s.session_id)).Nodup :=
  (load_curriculum_expansion
    [⟨some "C1", some "M", some "T1", some 2, none⟩,
     ⟨some "C2", some "E", some "T2", some 1, none⟩] (by decide)).1

/-! ### Backtracking solver: invariants and contracts (claims C5 and C6) -/

/-- Teacher of the session with a given id (total image of
`sessions_by_id[sid].teacher_id`). -/
def sessTeacher (ctx : BTContext) (sid : String) : String :=
  ((findSess ctx.sessions sid).map (fun s => s.teacher_id)).getD ""

/-- Class of the session with a given id. -/
def sessClass (ctx : BTContext) (sid : String) : String :=
  ((findSess ctx.sessions sid).map (fun s => s.class_id)).getD ""

/-- The three occupancy indexes mirror the assignment map exactly, key
for key, and contain no duplicate keys — in particular no two placed
sessions share a (teacher, slot), (class, slot) or (room, slot) pair. -/
def GoodState (ctx : BTContext) (st : BTState) : Prop :=
  st.teacher_busy = st.assignment.map (fun e => (sessTeacher ctx e.1, e.2.1)) ∧
  st.class_busy = st.assignment.map (fun e => (sessClass ctx e.1, e.2.1)) ∧
  st.room_busy = st.assignment.map (fun e => (e.2.2, e.2.1)) ∧
  st.teacher_busy.Nodup ∧ st.class_busy.Nodup ∧ st.room_busy.Nodup

theorem removePlace_place (st : BTState) (s : Session) (t : Timeslot)
    (r : String) : removePlace (place st s t r) s t r = st := by
  cases st with
  | mk a tb cb rb =>
    simp [place, removePlace, List.eraseP_cons]

theorem goodState_place (ctx : BTContext) (st : BTState) (s : Session)
    (t : Timeslot) (r : String)
    (hfind : findSess ctx.sessions s.session_id = some s)
    (hcons : is_consistent st s t r = true)
    (hgood : GoodState ctx st) : GoodState ctx (place st s t r) := by
  obtain ⟨h1, h2, h3, h4, h5, h6⟩ := hgood
  have hT : sessTeacher ctx s.session_id = s.teacher_id := by
    simp [sessTeacher, hfind]
  have hC : sessClass ctx s.session_id = s.class_id := by
    simp [sessClass, hfind]
  simp only [is_consistent, Bool.and_eq_true, Bool.not_eq_true',
    decide_eq_false_iff_not] at hcons
  refine ⟨?_, ?_, ?_, ?_, ?_, ?_⟩
  · simp only [place, List.map_cons, hT, h1]
  · simp only [place, List.map_cons, hC, h2]
  · simp only [place, List.map_cons, h3]
  · exact List.nodup_cons.mpr ⟨hcons.1.1, h4⟩
  · exact List.nodup_cons.mpr ⟨hcons.1.2, h5⟩
  · exact List.nodup_cons.mpr ⟨hcons.2, h6⟩

theorem findSess_session_id {sessions : List Session} {sid : String}
    {s : Session} (h : findSess sessions sid = some s) :
    s.session_id = sid := by
  have := List.find?_some h
  simpa using this

theorem select_unassigned_mem {ctx : BTContext} {st : BTState}
    {un : List String} {sid : String}
    (h : select_unassigned ctx st un = some sid) : sid ∈ un := by
  have aux : ∀ (l : List String) (acc : Option String × Nat),
      (l.foldl (fun best sid2 =>
        if domainSize ctx st sid2 < best.2 then (some sid2, domainSize ctx st sid2)
        else best) acc).1 = some sid →
      acc.1 = some sid ∨ sid ∈ l := by
    intro l
    induction l with
    | nil => intro acc hacc; exact Or.inl hacc
    | cons u us ih =>
      intro acc hacc
      rcases ih _ hacc with hin | hmem
      · simp only at hin
        by_cases hlt : domainSize ctx st u < acc.2
        · rw [if_pos hlt] at hin
          simp only [Option.some.injEq] at hin
          exact Or.inr (by rw [← hin]; exact List.mem_cons_self u us)
        · rw [if_neg hlt] at hin
          exact Or.inl hin
      · exact Or.inr (List.mem_cons_of_mem u hmem)
  rcases aux un ((none : Option String), (1000000000 : Nat)) h with hbad | hmem
  · simp at hbad
  · exact hmem

/-- Contract of one search call: on failure the state is restored
exactly and the unassigned list is a permutation of the input one; on
success the unassigned list is exhausted and the assignment has gained
exactly the unassigned session ids; and the occupancy invariant is
preserved. -/
def BTSpec (ctx : BTContext) (st : BTState) (un : List String)
    (res : Bool × Nat × BTState × List String) : Prop :=
  (res.1 = false → res.2.2.1 = st ∧ List.Perm res.2.2.2 un) ∧
  (res.1 = true → res.2.2.2 = [] ∧
    List.Perm (res.2.2.1.assignment.map Prod.fst)
      (un ++ st.assignment.map Prod.fst)) ∧
  (GoodState ctx st → GoodState ctx res.2.2.1)

theorem btSpec_unchanged_false (ctx : BTContext) (st : BTState)
    (un : List String) (c : Nat) : BTSpec ctx st un (false, c, st, un) :=
  ⟨fun _ => ⟨rfl, List.Perm.refl un⟩, fun h => by simp at h, fun h => h⟩

theorem tryValues_spec (ctx : BTContext)
    (bt : Nat → BTState → List String → Bool × Nat × BTState × List String)
    (hbt : ∀ clock st un, BTSpec ctx st un (bt clock st un)) :
    ∀ (dom : List (Timeslot × String)) (clock : Nat) (st : BTState)
      (un : List String) (s : Session),
      s.session_id ∈ un →
      findSess ctx.sessions s.session_id = some s →
      BTSpec ctx st un (tryValues ctx bt clock st un s dom) := by
  intro dom
  induction dom with
  | nil =>
    intro clock st un s _ _
    exact btSpec_unchanged_false ctx st un clock
  | cons hd rest ih =>
    intro clock st un s hmem hfind
    obtain ⟨t, r⟩ := hd
    simp only [tryValues]
    by_cases htime : ctx.timeUp clock
    · rw [if_pos htime]
      exact btSpec_unchanged_false ctx st un (clock + 1)
    · rw [if_neg htime]
      by_cases hcons : is_consistent st s t r
      · rw [if_pos hcons]
        split
        · rename_i c2 st2 un2 hres
          have hchild := hbt (clock + 1) (place st s t r) (un.erase s.session_id)
          rw [hres] at hchild
          obtain ⟨hemp, hkeys⟩ := hchild.2.1 rfl
          simp only at hemp hkeys
          refine ⟨fun h => by simp at h, fun _ => ⟨hemp, ?_⟩, fun hg => ?_⟩
          · simp only
            refine hkeys.trans ?_
            simp only [place, List.map_cons]
            refine (List.perm_middle).trans ?_
            exact (List.Perm.append_right _
              (List.perm_cons_erase hmem).symm).symm.symm
          · exact hchild.2.2 (goodState_place ctx st s t r hfind hcons hg)
        · rename_i c2 st2 un2 hres
          have hchild := hbt (clock + 1) (place st s t r) (un.erase s.session_id)
          rw [hres] at hchild
          obtain ⟨hst2, hun2⟩ := hchild.1 rfl
          simp only at hst2 hun2
          rw [hst2, removePlace_place]
          have hrec := ih c2 st (un2 ++ [s.session_id]) s
            (List.mem_append_right un2 (List.mem_cons_self _ _)) hfind
          have hperm : List.Perm (un2 ++ [s.session_id]) un := by
            refine (List.Perm.append_right [s.session_id] hun2).trans ?_
            refine (List.perm_append_singleton _ _).trans ?_
            exact (List.perm_cons_erase hmem).symm
          refine ⟨fun hf => ?_, fun htr => ?_, fun hg => hrec.2.2 hg⟩
          · obtain ⟨ha, hb⟩ := hrec.1 hf
            exact ⟨ha, hb.trans hperm⟩
          · obtain ⟨ha, hb⟩ := hrec.2.1 htr
            exact ⟨ha, hb.trans (List.Perm.append_right _ hperm)⟩
      · rw [if_neg hcons]
        exact ih (clock + 1) st un s hmem hfind

theorem backtrack_spec (ctx : BTContext) :
    ∀ (fuel clock : Nat) (st : BTState) (un : List String),
      BTSpec ctx st un (backtrack ctx fuel clock st un) := by
  intro fuel
  induction fuel with
  | zero =>
    intro clock st un
    exact btSpec_unchanged_false ctx st un clock
  | succ f ih =>
    intro clock st un
    simp only [backtrack]
    by_cases htime : ctx.timeUp clock
    · rw [if_pos htime]
      exact btSpec_unchanged_false ctx st un (clock + 1)
    · rw [if_neg htime]
      by_cases hemp : un.isEmpty
      · rw [if_pos hemp]
        have hun : un = [] := List.isEmpty_iff.mp hemp
        subst hun
        exact ⟨fun h => by simp at h,
          fun _ => ⟨rfl, by simp⟩, fun h => h⟩
      · rw [if_neg hemp]
        split
        · exact btSpec_unchanged_false ctx st un (clock + 1)
        · rename_i sid hsel
          split
          · exact btSpec_unchanged_false ctx st un (clock + 1)
          · rename_i s hfind
            have hid : s.session_id = sid := findSess_session_id hfind
            have hmem : s.session_id ∈ un := by
              rw [hid]
              exact select_unassigned_mem hsel
            have hf2 : findSess ctx.sessions s.session_id = some s := by
              rw [hid]
              exact hfind
            exact tryValues_spec ctx (backtrack ctx f)
              (fun c st1 un1 => ih c st1 un1) _ _ _ _ _ hmem hf2

/-- Claim C6.  At every call of the recursive search (hence throughout
the search), if the occupancy indexes mirror the assignment on entry
then they do so on exit as well — key for key and duplicate-free, so
no two simultaneously placed sessions share a (teacher, timeslot),
(class, timeslot) or (room, timeslot) pair — and whenever the call
fails, the assignment and all three indexes are returned restored
exactly to their entry state. -/
theorem backtrack_mirror_and_restore (ctx : BTContext) (fuel clock : Nat)
    (st : BTState) (un : List String) (hgood : GoodState ctx st) :
    GoodState ctx (backtrack ctx fuel clock st un).2.2.1 ∧
    ((backtrack ctx fuel clock st un).2.2.1.assignment.map
        (fun e => (sessTeacher ctx e.1, e.2.1))).Nodup ∧
    ((backtrack ctx fuel clock st un).2.2.1.assignment.map
        (fun e => (sessClass ctx e.1, e.2.1))).Nodup ∧
    ((backtrack ctx fuel clock st un).2.2.1.assignment.map
        (fun e => (e.2.2, e.2.1))).Nodup ∧
    ((backtrack ctx fuel clock st un).1 = false →
      (backtrack ctx fuel clock st un).2.2.1 = st) := by
  have h := backtrack_spec ctx fuel clock st un
  have hg := h.2.2 hgood
  obtain ⟨m1, m2, m3, n1, n2, n3⟩ := hg
  exact ⟨⟨m1, m2, m3, n1, n2, n3⟩, m1 ▸ n1, m2 ▸ n2, m3 ▸ n3,
    fun hf => (h.1 hf).1⟩

/-- Witness for C6 on a concrete two-session search from the empty
state. -/
theorem backtrack_mirror_and_restore_witness :
    GoodState
      { sessions := [⟨"S1", "C1", "M", "T1", none⟩,
          ⟨"S2", "C1", "M", "T1", none⟩],
        timeslots := [⟨1, 1⟩, ⟨1, 2⟩], room_ids := ["R1"],
        rooms := [("R1", ⟨"r", 30⟩)], classes := [("C1", ⟨"c", 20⟩)],
        unavailability := [], timeUp := fun _ => false }
      (backtrack
        { sessions := [⟨"S1", "C1", "M", "T1", none⟩,
            ⟨"S2", "C1", "M", "T1", none⟩],
          timeslots := [⟨1, 1⟩, ⟨1, 2⟩], room_ids := ["R1"],
          rooms := [("R1", ⟨"r", 30⟩)], classes := [("C1", ⟨"c", 20⟩)],
          unavailability := [], timeUp := fun _ => false }
        3 0 initBTState ["S1", "S2"]).2.2.1 :=
  (backtrack_mirror_and_restore _ 3 0 initBTState ["S1", "S2"]
    ⟨rfl, rfl, rfl, List.nodup_nil, List.nodup_nil, List.nodup_nil⟩).1

/-- Claim C5, amended: whenever the session list is non-empty, the
fallback solver returns success exactly when every session id is
covered by the returned assignment; on failure it returns the (empty)
assignment left after all placements were rolled back during
unwinding.  The domain bound confines the statement to inputs on which
the Python `_select_unassigned_session` sentinel `10 ** 9` cannot
be reached (its overflow would make the source raise instead of
returning). -/
theorem solve_success_iff_total (ctx : BTContext) (hne : ctx.sessions ≠ [])
    (hdom : ∀ sid ∈ ctx.sessions.map (fun s => s.session_id),
      (initialDomain ctx sid).length < 1000000000) :
    ((TimetableSolver_solve ctx).1 = true ↔
      ∀ s ∈ ctx.sessions, ∃ v,
        (s.session_id, v) ∈ (TimetableSolver_solve ctx).2) ∧
    ((TimetableSolver_solve ctx).1 = false →
      (TimetableSolver_solve ctx).2 = []) := by
  have h := backtrack_spec ctx (ctx.sessions.length + 1) 0 initBTState
    (ctx.sessions.map (fun s => s.session_id))
  have hfalse : (TimetableSolver_solve ctx).1 = false →
      (TimetableSolver_solve ctx).2 = [] := by
    intro hf
    have := (h.1 hf).1
    show (backtrack ctx (ctx.sessions.length + 1) 0 initBTState
      (ctx.sessions.map (fun s => s.session_id))).2.2.1.assignment = []
    rw [this]
    rfl
  refine ⟨⟨?_, ?_⟩, hfalse⟩
  · intro htrue s hs
    have hkeys := (h.2.1 htrue).2
    simp only [initBTState, List.map_nil, List.append_nil] at hkeys
    have hmem : s.session_id ∈
        (TimetableSolver_solve ctx).2.map Prod.fst :=
      hkeys.mem_iff.mpr (List.mem_map_of_mem (fun x => x.session_id) hs)
    obtain ⟨p, hpm, hp1⟩ := List.mem_map.mp hmem
    refine ⟨p.2, ?_⟩
    rw [← hp1, Prod.mk.eta]
    exact hpm
  · intro hcov
    cases hb : (TimetableSolver_solve ctx).1 with
    | true => rfl
    | false =>
      exfalso
      obtain ⟨s0, hs0⟩ := List.exists_mem_of_ne_nil ctx.sessions hne
      obtain ⟨v, hv⟩ := hcov s0 hs0
      rw [hfalse hb] at hv
      simp at hv

/-- Witness for the amended C5 on a concrete satisfiable instance:
success is reported, so session S1 is covered by the assignment. -/
theorem solve_success_iff_total_witness :
    ∃ v, (("S1" : String), v) ∈
      (TimetableSolver_solve
        { sessions := [⟨"S1", "C1", "M", "T1", none⟩,
            ⟨"S2", "C1", "M", "T1", none⟩],
          timeslots := [⟨1, 1⟩, ⟨1, 2⟩], room_ids := ["R1"],
          rooms := [("R1", ⟨"r", 30⟩)], classes := [("C1", ⟨"c", 20⟩)],
          unavailability := [], timeUp := fun _ => false }).2 :=
  (solve_success_iff_total
    { sessions := [⟨"S1", "C1", "M", "T1", none⟩,
        ⟨"S2", "C1", "M", "T1", none⟩],
      timeslots := [⟨1, 1⟩, ⟨1, 2⟩], room_ids := ["R1"],
      rooms := [("R1", ⟨"r", 30⟩)], classes := [("C1", ⟨"c", 20⟩)],
      unavailability := [], timeUp := fun _ => false }
    (by decide) (by decide)).1.mp (by rfl)
    ⟨"S1", "C1", "M", "T1", none⟩ (by decide)

/-- Context with no sessions and a time budget already expired at the
first check (in the source: an empty curriculum together with a
non-positive `time_limit_sec`). -/
def expiredEmptyCtx : BTContext :=
  { sessions := [], timeslots := [], room_ids := [], rooms := [],
    classes := [], unavailability := [], timeUp := fun _ => true }

/-- Counterexample to C5 as frozen: on `expiredEmptyCtx`, `solve`
returns success = false although every session — all zero of them — is
covered by the returned (empty) assignment, so "success if and only if
every session has been placed" fails as an iff. -/
theorem solve_success_iff_counterexample :
    ¬(((TimetableSolver_solve expiredEmptyCtx).1 = true) ↔
      (∀ s ∈ expiredEmptyCtx.sessions, ∃ v,
        (s.session_id, v) ∈ (TimetableSolver_solve expiredEmptyCtx).2)) := by
  intro h
  have h2 := h.mpr (by simp [expiredEmptyCtx])
  exact absurd h2 (by decide)

/-! ### Feasible room sets and unknown foreign keys (claims C3 and C9) -/

theorem labRoomFilter_ok (classes : List (String × ClassInfo))
    (rooms : List (String × Room)) (cid : String) (cls : ClassInfo)
    (hcls : List.lookup cid classes = some cls) :
    ∀ vs, labRoomFilter classes rooms cid vs =
      Except.ok (vs.filter (fun r =>
        match List.lookup r rooms with
        | some info => decide (cls.size ≤ info.capacity)
        | none => false)) := by
  intro vs
  induction vs with
  | nil => rfl
  | cons r rest ih =>
    simp only [labRoomFilter]
    cases hr : List.lookup r rooms with
    | none =>
      rw [ih]
      simp [List.filter_cons, hr]
    | some info =>
      rw [hcls, ih]
      by_cases hcap : cls.size ≤ info.capacity <;>
        simp [List.filter_cons, hr, hcap]

theorem labRoomFilter_class_none (classes : List (String × ClassInfo))
    (rooms : List (String × Room)) (cid : String)
    (hcls : List.lookup cid classes = none) :
    ∀ vs, labRoomFilter classes rooms cid vs =
      (if vs.any (fun r => (List.lookup r rooms).isSome)
        then Except.error "KeyError: class_id" else Except.ok []) := by
  intro vs
  induction vs with
  | nil => rfl
  | cons r rest ih =>
    simp only [labRoomFilter]
    cases hr : List.lookup r rooms with
    | none =>
      rw [ih]
      have hany : ((r :: rest).any fun r2 => (List.lookup r2 rooms).isSome) =
          (rest.any fun r2 => (List.lookup r2 rooms).isSome) := by
        simp [hr]
      rw [hany]
    | some info =>
      rw [hcls]
      have hany : ((r :: rest).any fun r2 =>
          (List.lookup r2 rooms).isSome) = true := by
        simp [hr]
      rw [hany, if_pos rfl]

theorem possible_rooms_nonlab (subjects : List (String × Subject))
    (classes : List (String × ClassInfo)) (rooms : List (String × Room))
    (home_room_map : List (String × String)) (s : Session) (subj : Subject)
    (hs : List.lookup s.subject_id subjects = some subj)
    (hnot : ¬(subj.required_room_type = "Lab" ∧ subj.viable_rooms ≠ [])) :
    possible_rooms_for subjects classes rooms home_room_map s =
      Except.ok (match List.lookup s.class_id home_room_map with
        | some hr => [hr]
        | none => []) := by
  simp only [possible_rooms_for, hs]
  have hcond : (subj.required_room_type == "Lab" &&
      !subj.viable_rooms.isEmpty) = false := by
    by_cases h1 : subj.required_room_type = "Lab"
    · have h2 : subj.viable_rooms = [] := by
        by_contra h3
        exact hnot ⟨h1, h3⟩
      simp [h2]
    · simp [h1]
  rw [hcond]
  simp

/-- Claim C3, amended.  The feasible room set of a session: when the
subject requires the `'Lab'` kind and lists at least one viable room,
it is the viable-room list restricted to existing rooms with capacity
at least the class size; otherwise — including the case of a
`'Lab'`-kind subject whose viable-room list is empty, which the claim
as frozen assigns an empty domain — it is the singleton home room of
the class, or empty if the class has no home room; and a session whose
room set is empty contributes no decision variables at all. -/
theorem feasible_rooms_characterization
    (subjects : List (String × Subject)) (classes : List (String × ClassInfo))
    (rooms : List (String × Room)) (home_room_map : List (String × String))
    (timeslots : List Timeslot) (s : Session) (subj : Subject)
    (hs : List.lookup s.subject_id subjects = some subj) :
    (∀ cls, List.lookup s.class_id classes = some cls →
      subj.required_room_type = "Lab" → subj.viable_rooms ≠ [] →
      possible_rooms_for subjects classes rooms home_room_map s =
        Except.ok (subj.viable_rooms.filter (fun r =>
          match List.lookup r rooms with
          | some info => decide (cls.size ≤ info.capacity)
          | none => false))) ∧
    (¬(subj.required_room_type = "Lab" ∧ subj.viable_rooms ≠ []) →
      possible_rooms_for subjects classes rooms home_room_map s =
        Except.ok (match List.lookup s.class_id home_room_map with
          | some hr => [hr]
          | none => [])) ∧
    (∀ prs, possible_rooms_for subjects classes rooms home_room_map s =
        Except.ok prs →
      create_decision_variables subjects classes rooms home_room_map
          timeslots [s] =
        Except.ok (timeslots.flatMap (fun t =>
          prs.map (fun r => ((s.session_id, t, r) : VarKey))))) ∧
    (possible_rooms_for subjects classes rooms home_room_map s =
        Except.ok [] →
      create_decision_variables subjects classes rooms home_room_map
        timeslots [s] = Except.ok []) := by
  refine ⟨?_, ?_, ?_, ?_⟩
  · intro cls hcls hlab hne
    simp only [possible_rooms_for, hs]
    have hcond : (subj.required_room_type == "Lab" &&
        !subj.viable_rooms.isEmpty) = true := by
      simp [hlab, hne]
    rw [if_pos hcond]
    exact labRoomFilter_ok classes rooms s.class_id cls hcls subj.viable_rooms
  · exact possible_rooms_nonlab subjects classes rooms home_room_map s subj hs
  · intro prs hprs
    simp only [create_decision_variables, hprs]
    rw [List.append_nil]
  · intro hprs
    simp only [create_decision_variables, hprs]
    simp

/-- Counterexample to C3 as frozen: a subject requiring the specialized
(Lab) kind but carrying an empty viable-room list is routed to the home
room of its class — the feasible set is the singleton home room, not
the empty intersection of the viable list with the fitting rooms that
the claim prescribes. -/
theorem feasible_rooms_lab_empty_counterexample :
    possible_rooms_for [("PH", ⟨"Physics Sessional", 2, "Lab", [], false⟩)]
      [("C1", ⟨"c", 30⟩)] [("R1", ⟨"r1", 40, "Theory"⟩)] [("C1", "R1")]
      ⟨"X1", "C1", "PH", "T1", none⟩ = Except.ok ["R1"] := rfl

/-- Claim C9, amended.  Unknown room ids in a viable-room list never
crash variable creation (they are skipped by the `r_id in self.rooms`
guard), and an unknown class id on a non-lab session merely yields the
home-room lookup (empty when the class has no home room); but an
unknown subject id always raises `KeyError`, and an unknown class id on
a lab session raises `KeyError` as soon as one viable room exists. -/
theorem create_vars_unknown_foreign_keys
    (subjects : List (String × Subject)) (classes : List (String × ClassInfo))
    (rooms : List (String × Room)) (home_room_map : List (String × String))
    (s : Session) :
    (List.lookup s.subject_id subjects = none →
      possible_rooms_for subjects classes rooms home_room_map s =
        Except.error "KeyError: subject_id") ∧
    (∀ subj, List.lookup s.subject_id subjects = some subj →
      ¬(subj.required_room_type = "Lab" ∧ subj.viable_rooms ≠ []) →
      ∃ l, possible_rooms_for subjects classes rooms home_room_map s =
          Except.ok l ∧
        (List.lookup s.class_id home_room_map = none → l = [])) ∧
    (∀ subj, List.lookup s.subject_id subjects = some subj →
      subj.required_room_type = "Lab" → subj.viable_rooms ≠ [] →
      List.lookup s.class_id classes = none →
      possible_rooms_for subjects classes rooms home_room_map s =
        (if subj.viable_rooms.any (fun r => (List.lookup r rooms).isSome)
          then Except.error "KeyError: class_id" else Except.ok [])) := by
  refine ⟨?_, ?_, ?_⟩
  · intro hnone
    simp [possible_rooms_for, hnone]
  · intro subj hs hnot
    have hhome := possible_rooms_nonlab subjects classes rooms
      home_room_map s subj hs hnot
    refine ⟨_, hhome, fun hnohome => ?_⟩
    rw [hnohome]
  · intro subj hs hlab hne hcls
    simp only [possible_rooms_for, hs]
    have hcond : (subj.required_room_type == "Lab" &&
        !subj.viable_rooms.isEmpty) = true := by
      simp [hlab, hne]
    rw [if_pos hcond]
    exact labRoomFilter_class_none classes rooms s.class_id hcls
      subj.viable_rooms

/-- Counterexample to C9 as frozen: a session whose subject id is
absent from the subject table makes constraint-model construction raise
`KeyError` instead of producing an empty feasible domain. -/
theorem create_vars_unknown_subject_counterexample :
    create_decision_variables [] [("C1", ⟨"c", 30⟩)] [] [] [⟨1, 1⟩]
      [⟨"X1", "C1", "GHOST", "T1", none⟩] =
      Except.error "KeyError: subject_id" := rfl

/-! ### CP solver status handling (claim C4) -/

/-- Claim C4.  With the decision variables built, `solve` returns
success together with the assignment extracted from the true decision
variables exactly when the CP status is OPTIMAL or FEASIBLE, and in
every other case returns failure with an empty assignment. -/
theorem or_solver_status_contract
    (subjects : List (String × Subject)) (classes : List (String × ClassInfo))
    (rooms : List (String × Room)) (home_room_map : List (String × String))
    (sessions : List Session) (timeslots : List Timeslot)
    (status : CpStatus) (value : VarKey → Bool) (keys : List VarKey)
    (hk : create_decision_variables subjects classes rooms home_room_map
      timeslots sessions = Except.ok keys) :
    ORTimetableSolver_solve subjects classes rooms home_room_map sessions
        timeslots status value = Except.ok (or_solve keys status value) ∧
    ((or_solve keys status value).1 = true ↔
      (status = CpStatus.OPTIMAL ∨ status = CpStatus.FEASIBLE)) ∧
    ((or_solve keys status value).1 = false →
      (or_solve keys status value).2 = []) ∧
    ((or_solve keys status value).1 = true →
      (or_solve keys status value).2 = extract_solution keys value) := by
  refine ⟨by simp [ORTimetableSolver_solve, hk], ?_, ?_, ?_⟩ <;>
    unfold or_solve <;>
    by_cases h : status = CpStatus.OPTIMAL ∨ status = CpStatus.FEASIBLE <;>
    simp [h]

/-- Witness for C4 at a concrete one-session model and an INFEASIBLE
status. -/
theorem or_solver_status_contract_witness :
    ((or_solve [(("S1", ⟨1, 1⟩, "R1") : VarKey)] CpStatus.INFEASIBLE
        (fun _ => true)).1 = true ↔
      (CpStatus.INFEASIBLE = CpStatus.OPTIMAL ∨
        CpStatus.INFEASIBLE = CpStatus.FEASIBLE)) :=
  (or_solver_status_contract [("M", ⟨"Math", 1, "", [], false⟩)]
    [("C1", ⟨"c", 20⟩)] [] [("C1", "R1")]
    [⟨"S1", "C1", "M", "T1", none⟩] [⟨1, 1⟩] CpStatus.INFEASIBLE
    (fun _ => true) [(("S1", ⟨1, 1⟩, "R1") : VarKey)] (by rfl)).2.1

/-! ### Exclusion of optional-subject sessions (claim C10) -/

theorem mem_dictInsert {k : String} {v : Timeslot × String}
    {sol : List (String × Timeslot × String)} {p : String × Timeslot × String}
    (h : p ∈ dictInsert k v sol) : p = (k, v) ∨ p ∈ sol := by
  induction sol with
  | nil => simpa [dictInsert] using h
  | cons q l ih =>
    obtain ⟨k1, v1⟩ := q
    simp only [dictInsert] at h
    by_cases hk : k1 == k
    · rw [if_pos hk] at h
      rcases List.mem_cons.mp h with h1 | h1
      · exact Or.inl h1
      · exact Or.inr (List.mem_cons_of_mem _ h1)
    · rw [if_neg hk] at h
      rcases List.mem_cons.mp h with h1 | h1
      · exact Or.inr (h1 ▸ List.mem_cons_self _ _)
      · rcases ih h1 with h2 | h2
        · exact Or.inl h2
        · exact Or.inr (List.mem_cons_of_mem _ h2)

theorem mem_extract_solution {keys : List VarKey} {value : VarKey → Bool}
    {p : String × Timeslot × String}
    (h : p ∈ extract_solution keys value) :
    p.1 ∈ keys.map (fun k => k.1) := by
  have aux : ∀ (ks : List VarKey) (sol : List (String × Timeslot × String)),
      p ∈ ks.foldl (fun sol key =>
        if value key then dictInsert key.1 key.2 sol else sol) sol →
      p ∈ sol ∨ p.1 ∈ ks.map (fun k => k.1) := by
    intro ks
    induction ks with
    | nil => intro sol hp; exact Or.inl hp
    | cons key rest ih =>
      intro sol hp
      rcases ih _ hp with hin | hmem
      · simp only at hin
        by_cases hv : value key
        · rw [if_pos hv] at hin
          rcases mem_dictInsert hin with h1 | h1
          · refine Or.inr ?_
            rw [h1]
            simpa using List.mem_map_of_mem (fun k => k.1)
              (List.mem_cons_self key rest)
          · exact Or.inl h1
        · rw [if_neg hv] at hin
          exact Or.inl hin
      · refine Or.inr ?_
        simp only [List.map_cons]
        exact List.mem_cons_of_mem _ hmem
  rcases aux keys [] h with hbad | hmem
  · simp at hbad
  · exact hmem

theorem create_vars_keys_sessions
    (subjects : List (String × Subject)) (classes : List (String × ClassInfo))
    (rooms : List (String × Room)) (home_room_map : List (String × String))
    (timeslots : List Timeslot) :
    ∀ (sessions : List Session) (keys : List VarKey),
      create_decision_variables subjects classes rooms home_room_map
        timeslots sessions = Except.ok keys →
      ∀ k ∈ keys, k.1 ∈ sessions.map (fun s => s.session_id) := by
  intro sessions
  induction sessions with
  | nil =>
    intro keys h k hk
    simp only [create_decision_variables, Except.ok.injEq] at h
    subst h
    simp at hk
  | cons s ss ih =>
    intro keys h k hk
    simp only [create_decision_variables] at h
    cases hpr : possible_rooms_for subjects classes rooms home_room_map s with
    | error e => rw [hpr] at h; simp at h
    | ok prs =>
      rw [hpr] at h
      cases hrest : create_decision_variables subjects classes rooms
          home_room_map timeslots ss with
      | error e => rw [hrest] at h; simp at h
      | ok rest =>
        rw [hrest] at h
        simp only [Except.ok.injEq] at h
        subst h
        rcases List.mem_append.mp hk with hh | ht
        · simp only [List.mem_flatMap, List.mem_map] at hh
          obtain ⟨t, _, r, _, rfl⟩ := hh
          exact List.mem_cons_self _ _
        · exact List.mem_cons_of_mem _ (ih rest hrest k ht)

/-- Claim C10.  `run` removes every session of an optional subject
before solving (the `optional_included` flag is hard-coded false, so
the filter is unconditional): optional sessions are not in the solver
input, `sessions_total` counts only the surviving sessions (or is zero
on the short-circuit paths), and every id in the produced assignment
belongs to a surviving session. -/
theorem run_excludes_optional_sessions
    (classes : List (String × ClassInfo)) (rooms : List (String × Room))
    (subjects : List (String × Subject)) (timeslots : List Timeslot)
    (lines : List DemandLine) (status : CpStatus) (value : VarKey → Bool)
    (res : RunResult)
    (hrun : run classes rooms subjects timeslots lines status value =
      Except.ok res) :
    (∀ s ∈ load_curriculum lines,
      s.subject_id ∈ optionalSubjectIds subjects →
      s ∉ nonOptionalSessions subjects (load_curriculum lines)) ∧
    (res.sessions_total =
        (nonOptionalSessions subjects (load_curriculum lines)).length ∨
      res.sessions_total = 0) ∧
    (∀ p ∈ res.assignment, p.1 ∈
      (nonOptionalSessions subjects (load_curriculum lines)).map
        (fun s => s.session_id)) := by
  refine ⟨?_, ?_, ?_⟩
  · intro s _ hopt hmem
    have h2 := (List.mem_filter.mp hmem).2
    simp only [Bool.not_eq_true'] at h2
    simp_all
  · simp only [run] at hrun
    split at hrun
    · simp only [Except.ok.injEq] at hrun
      subst hrun
      exact Or.inr rfl
    · split at hrun
      · simp only [Except.ok.injEq] at hrun
        subst hrun
        exact Or.inr rfl
      · split at hrun
        · exact absurd hrun (by simp)
        · simp only [Except.ok.injEq] at hrun
          subst hrun
          exact Or.inl rfl
  · intro p hp
    simp only [run] at hrun
    split at hrun
    · simp only [Except.ok.injEq] at hrun
      subst hrun
      simp at hp
    · rename_i hrm heq
      split at hrun
      · simp only [Except.ok.injEq] at hrun
        subst hrun
        simp at hp
      · split at hrun
        · exact absurd hrun (by simp)
        · rename_i b a hsol
          simp only [Except.ok.injEq] at hrun
          subst hrun
          simp only at hp
          simp only [ORTimetableSolver_solve] at hsol
          cases hkeys : create_decision_variables subjects classes rooms hrm
              timeslots (nonOptionalSessions subjects
                (load_curriculum lines)) with
          | error e => rw [hkeys] at hsol; simp at hsol
          | ok keys =>
            rw [hkeys] at hsol
            simp only [Except.ok.injEq] at hsol
            have ha : (or_solve keys status value).2 = a := by
              rw [hsol]
            rw [← ha] at hp
            simp only [or_solve] at hp
            by_cases hst : status = CpStatus.OPTIMAL ∨
                status = CpStatus.FEASIBLE
            · rw [if_pos hst] at hp
              simp only at hp
              obtain ⟨k, hkmem, hk1⟩ := List.mem_map.mp (mem_extract_solution hp)
              have hks := create_vars_keys_sessions subjects classes rooms hrm
                timeslots _ keys hkeys k hkmem
              exact hk1 ▸ hks
            · rw [if_neg hst] at hp
              simp at hp

/-! ### Session expander on incomplete lines (claim C8)

The spec calls for a `DataError` on missing required fields; the code
instead performs `df.dropna(subset=required_cols)` — with the source
comment "Drop rows where essential data is missing to prevent
crashes" — silently continuing without the affected lines.  The model
is accordingly a total function with no error outcome. -/

/-- Counterexample to C8: a line missing its teacher id is silently
dropped — the expander returns normally, omitting that line's sessions
and renumbering the remaining ones, instead of failing with a
DataError. -/
theorem load_curriculum_missing_field_counterexample :
    load_curriculum [⟨some "C1", some "M", none, some 3, none⟩,
        ⟨some "C2", some "E", some "T2", some 1, none⟩] =
      [{ session_id := "S1", class_id := "C2", subject_id := "E",
         teacher_id := "T2", room_id := none }] := rfl

/-- Claim C8, amended: the expander never fails on lines with missing
required fields; it behaves exactly as if those lines had been removed
from the input beforehand. -/
theorem load_curriculum_drops_incomplete (lines : List DemandLine) :
    load_curriculum lines = load_curriculum (lines.filter lineComplete) := by
  simp only [load_curriculum]
  rw [List.filter_eq_self.mpr (fun l hl => (List.mem_filter.mp hl).2)]

/-- Witness for the amended C3 on the non-lab branch: a theory subject
is routed to the home room of its class. -/
theorem feasible_rooms_characterization_witness :
    possible_rooms_for [("M", ⟨"Math", 1, "", [], false⟩)]
        [("C1", ⟨"c", 20⟩)] [] [("C1", "R1")]
        ⟨"S1", "C1", "M", "T1", none⟩ = Except.ok ["R1"] :=
  (feasible_rooms_characterization [("M", ⟨"Math", 1, "", [], false⟩)]
    [("C1", ⟨"c", 20⟩)] [] [("C1", "R1")] [⟨1, 1⟩]
    ⟨"S1", "C1", "M", "T1", none⟩ ⟨"Math", 1, "", [], false⟩ rfl).2.1
    (by simp)

/-- Witness for the amended C9: a session with an unknown subject id
raises `KeyError` in variable creation. -/
theorem create_vars_unknown_foreign_keys_witness :
    possible_rooms_for [] [("C1", ⟨"c", 30⟩)] [] []
        ⟨"X1", "C1", "GHOST", "T1", none⟩ =
      Except.error "KeyError: subject_id" :=
  (create_vars_unknown_foreign_keys [] [("C1", ⟨"c", 30⟩)] [] []
    ⟨"X1", "C1", "GHOST", "T1", none⟩).1 rfl

/-- Witness for C10 on a concrete run containing one optional-subject
demand line: the result counts only the non-optional session. -/
theorem run_excludes_optional_sessions_witness :
    (({ status := "SUCCESS: Timetable generated.", sessions_total := 1,
        sessions_scheduled := 1,
        assignment := [("S1", ⟨1, 1⟩, "R1")] } : RunResult).sessions_total =
      (nonOptionalSessions
        [("OPT", ⟨"Opt", 1, "", [], true⟩), ("M", ⟨"Math", 1, "", [], false⟩)]
        (load_curriculum
          [⟨some "11A", some "M", some "T1", some 1, none⟩,
           ⟨some "11A", some "OPT", some "T2", some 1, none⟩])).length ∨
    ({ status := "SUCCESS: Timetable generated.", sessions_total := 1,
        sessions_scheduled := 1,
        assignment := [("S1", ⟨1, 1⟩, "R1")] } : RunResult).sessions_total =
      0) :=
  (run_excludes_optional_sessions [("11A", ⟨"sec A", 30⟩)]
    [("R1", ⟨"r1", 40, "Theory"⟩)]
    [("OPT", ⟨"Opt", 1, "", [], true⟩), ("M", ⟨"Math", 1, "", [], false⟩)]
    [⟨1, 1⟩]
    [⟨some "11A", some "M", some "T1", some 1, none⟩,
     ⟨some "11A", some "OPT", some "T2", some 1, none⟩]
    CpStatus.FEASIBLE (fun _ => true)
    { status := "SUCCESS: Timetable generated.", sessions_total := 1,
      sessions_scheduled := 1, assignment := [("S1", ⟨1, 1⟩, "R1")] }
    (by rfl)).2.1

end Timetables
